import Mathlib

/-!
Shallow embedding of the core of the `shrinkwrap_without_touching` Blender
add-on (`src/shrinkwrap_without_touching/__init__.py`): the mesh-intersection
oracle `intersection_check` and the bounded offset-search loop inside
`SHRINKWRAPWITHOUTTOUCHING_PT_CreateShrinkwrapModifier.execute`.

Modelling conventions:
* A mesh is a list of world-space triangles.  The triangle type is left as a
  parameter `T`, and the host's exact triangle/triangle intersection test
  (performed by `mathutils.bvhtree.BVHTree.overlap` after bounding-volume
  pruning) is a parameter `ti : T → T → Bool`.
* The scene (`bpy.context.scene.objects[name].data`, already transformed by
  `matrix_world` as the source does with `bm.transform`) is a function from
  object names to meshes.
* Python floats are modelled as exact rationals; the literals `0.01` and `20`
  of the source become `step = 1/100` and `bound = 20`.
* The mutable state touched by the loop is the subject object's mesh data
  together with its modifier stack (each Shrinkwrap modifier is recorded by
  the only field the algorithm reads back, its `offset`).  `bpy.ops.ed.undo`
  after a `bpy.ops.ed.undo_push` restores the state captured by the push, as
  the source's own comment states ("when we do an undo, we want to go back to
  this exact state"); the undo stack is a list of such snapshots.
* The external deformation applier (`modifier_apply` evaluating the Shrinkwrap
  modifier on the subject's mesh data) is a parameter
  `deform : List T → ℚ → List T`.
* Host lookups that raise in Python (`bpy.data.objects[name]` raising
  `KeyError`, `bpy.context.active_object` being `None`) are modelled in a
  separate `Except`-valued variant of the entry point.
-/

namespace ShrinkwrapWithoutTouching

/-- Models `BVHTree.overlap` applied to the BVH trees of two meshes, as the
spec describes it: bounding-volume pruning followed by an exact
triangle-triangle test, returning the intersecting pairs (the source only ever
tests this list for emptiness, so the pairs are recorded as triangle pairs
rather than index pairs).  `ti` is the host's exact triangle intersection
test. -/
def overlap {T : Type} (ti : T → T → Bool) (m1 m2 : List T) : List (T × T) :=
  m1.flatMap (fun t1 => (m2.filter (fun t2 => ti t1 t2)).map (fun t2 => (t1, t2)))

/-- `intersection_check` from the source (lines 79–111): for every ordered
pair of (distinct-named) objects in `obj_list`, build the two meshes, take
their BVH-tree overlap, and record `objectsTouching = True` whenever the
overlap list is nonempty.  The accumulator structure mirrors the Python double
`for` loop with its `continue` on `obj_now == obj_next`. -/
def intersection_check {T : Type} (ti : T → T → Bool) (scene : String → List T)
    (obj_list : List String) : Bool :=
  obj_list.foldl
    (fun acc obj_now =>
      obj_list.foldl
        (fun acc2 obj_next =>
          if obj_now == obj_next then acc2
          else if (overlap ti (scene obj_now) (scene obj_next)).isEmpty then acc2
          else true)
        acc)
    false

/-- The mutable state of the subject object during the search: its mesh data
and its modifier stack (each Shrinkwrap modifier recorded by its offset). -/
structure Snapshot (T : Type) where
  mesh : List T
  mods : List ℚ
deriving DecidableEq

/-- `create_shrinkwrap_modifier` (source lines 66–77): append a new Shrinkwrap
modifier with the given offset to the active object's modifier stack and
return its index `len(modifiers) - 1`. -/
def create_shrinkwrap_modifier {T : Type} (offset : ℚ) (st : Snapshot T) :
    Nat × Snapshot T :=
  let mods := st.mods ++ [offset]
  (mods.length - 1, { mesh := st.mesh, mods := mods })

/-- `bpy.ops.object.modifier_apply` on the modifier at `index`: the external
deformation applier `deform` rewrites the subject's mesh data using that
modifier's offset, and the modifier is removed from the stack. -/
def modifier_apply {T : Type} (deform : List T → ℚ → List T) (index : Nat)
    (st : Snapshot T) : Snapshot T :=
  { mesh := deform st.mesh (st.mods.getD index 0), mods := st.mods.eraseIdx index }

/-- `bpy.ops.ed.undo_push`: record the current state on the undo stack. -/
def undo_push {T : Type} (us : List (Snapshot T)) (st : Snapshot T) :
    List (Snapshot T) :=
  st :: us

/-- `bpy.ops.ed.undo`: restore the most recently pushed state (per the
source's comment on its `undo_push`, undo returns to exactly the pushed
state).  Returns the restored state and the remaining stack. -/
def ed_undo {T : Type} (us : List (Snapshot T)) (st : Snapshot T) :
    Snapshot T × List (Snapshot T) :=
  match us with
  | [] => (st, [])
  | s :: rest => (s, rest)

/-- The scene as `intersection_check` reads it while the subject object's mesh
data is `subjMesh`: the subject's name resolves to `subjMesh`, every other
name is resolved by `rest`. -/
def sceneAt {T : Type} (subjectName : String) (subjMesh : List T)
    (rest : String → List T) : String → List T :=
  fun n => if n = subjectName then subjMesh else rest n

/-- The loop step of the source, `offset += 0.01`. -/
def step : ℚ := 1 / 100

/-- The iteration bound of the source, `while iterations < 20`. -/
def bound : Nat := 20

/-- Result of the `while iterations < 20` loop (source lines 124–143).
`tried` is specification instrumentation: the list of offsets at which the
oracle was queried, in order.  `oracleCalls` counts the calls to
`intersection_check`. -/
structure LoopOut (T : Type) where
  foundGoodOffset : Bool
  offset : ℚ
  iterations : Nat
  state : Snapshot T
  undoStack : List (Snapshot T)
  oracleCalls : Nat
  tried : List ℚ
deriving DecidableEq

/-- The `while iterations < 20` loop of `execute` (source lines 127–143),
with `remaining` the number of loop iterations the guard still allows
(`20 - iterations` at entry).  Each pass: increment `iterations`, create a
Shrinkwrap modifier at the current offset, `undo_push`, apply the modifier,
query `intersection_check`; on no intersection set `foundGoodOffset`, undo and
break, otherwise `offset += 0.01`, undo and continue. -/
def searchLoop {T : Type} (ti : T → T → Bool) (deform : List T → ℚ → List T)
    (sN tN : String) (rest : String → List T) :
    Nat → Snapshot T → List (Snapshot T) → ℚ → Nat → Nat → List ℚ → LoopOut T
  | 0, st, us, off, iters, calls, tried =>
    { foundGoodOffset := false, offset := off, iterations := iters, state := st,
      undoStack := us, oracleCalls := calls, tried := tried }
  | Nat.succ remaining, st, us, off, iters, calls, tried =>
    let iters2 := iters + 1
    let c := create_shrinkwrap_modifier off st
    let us1 := undo_push us c.2
    let st2 := modifier_apply deform c.1 c.2
    if intersection_check ti (sceneAt sN st2.mesh rest) [sN, tN] = false then
      let u := ed_undo us1 st2
      { foundGoodOffset := true, offset := off, iterations := iters2,
        state := u.1, undoStack := u.2, oracleCalls := calls + 1,
        tried := tried ++ [off] }
    else
      let off2 := off + step
      let u := ed_undo us1 st2
      searchLoop ti deform sN tN rest remaining u.1 u.2 off2 iters2 (calls + 1)
        (tried ++ [off])

/-- Result of `execute`.  `commitOffset` is specification instrumentation: the
offset passed to the final `create_shrinkwrap_modifier` call on success
(source line 146), `none` when the search failed. -/
structure ExecResult (T : Type) where
  foundGoodOffset : Bool
  offset : ℚ
  iterations : Nat
  state : Snapshot T
  oracleCalls : Nat
  tried : List ℚ
  commitOffset : Option ℚ
deriving DecidableEq

/-- `execute` (source lines 113–160), with the host context made explicit:
`sN`/`tN` are the active (subject) and target object names, `rest` resolves
every non-subject name to its world-space mesh, `m0` is the subject's initial
mesh data, `mods0` its initial modifier stack, and `applyPref` the
`apply_shrinkwrap` preference.  Runs the search loop from `offset = 0`; on
success creates a final Shrinkwrap modifier at the found offset and, when
`applyPref` is set, applies it (after an `undo_push` that is never undone). -/
def execute {T : Type} (ti : T → T → Bool) (deform : List T → ℚ → List T)
    (sN tN : String) (rest : String → List T) (m0 : List T) (mods0 : List ℚ)
    (applyPref : Bool) : ExecResult T :=
  let lo := searchLoop ti deform sN tN rest bound
    { mesh := m0, mods := mods0 } [] 0 0 0 []
  if lo.foundGoodOffset then
    let c := create_shrinkwrap_modifier lo.offset lo.state
    if applyPref then
      let st2 := modifier_apply deform c.1 c.2
      { foundGoodOffset := true, offset := lo.offset,
        iterations := lo.iterations, state := st2,
        oracleCalls := lo.oracleCalls, tried := lo.tried,
        commitOffset := some lo.offset }
    else
      { foundGoodOffset := true, offset := lo.offset,
        iterations := lo.iterations, state := c.2,
        oracleCalls := lo.oracleCalls, tried := lo.tried,
        commitOffset := some lo.offset }
  else
    { foundGoodOffset := false, offset := lo.offset,
      iterations := lo.iterations, state := lo.state,
      oracleCalls := lo.oracleCalls, tried := lo.tried, commitOffset := none }

/-- The oracle outcome the loop observes at a given offset when the subject's
pre-trial mesh data is `m0`: `intersection_check` on the trial-deformed
subject against the scene. -/
def intersectsAtOffset {T : Type} (ti : T → T → Bool)
    (deform : List T → ℚ → List T) (sN tN : String) (rest : String → List T)
    (m0 : List T) (off : ℚ) : Bool :=
  intersection_check ti (sceneAt sN (deform m0 off) rest) [sN, tN]

/-- `intersection_check` with the Python name lookups made fallible:
`bpy.context.scene.objects[name]` raises `KeyError` when `name` does not
resolve, modelled as `Except.error`.  The `continue` on `obj_now == obj_next`
happens before any lookup, as in the source. -/
def intersection_checkE {T : Type} (ti : T → T → Bool)
    (sceneO : String → Option (List T)) (obj_list : List String) :
    Except String Bool :=
  obj_list.foldlM
    (fun acc obj_now =>
      obj_list.foldlM
        (fun acc2 obj_next =>
          if obj_now == obj_next then pure acc2
          else
            match sceneO obj_now, sceneO obj_next with
            | some m1, some m2 =>
              pure (if (overlap ti m1 m2).isEmpty then acc2 else true)
            | none, _ => Except.error ("KeyError: " ++ obj_now ++ " not found")
            | _, none => Except.error ("KeyError: " ++ obj_next ++ " not found"))
        acc)
    false

/-- `execute` with the fallible host lookups it performs before the loop made
explicit: `bpy.context.active_object` may be `None` (its `.mode` access on
line 117 then raises `AttributeError`), and
`bpy.data.objects[preferences.target_name]` on line 122 raises `KeyError`
when the target name (possibly the empty default `''`) names no object.
On valid references it runs the pure `execute`. -/
def executeE {T : Type} (ti : T → T → Bool) (deform : List T → ℚ → List T)
    (activeObject : Option String) (tN : String)
    (sceneO : String → Option (List T)) (mods0 : List ℚ) (applyPref : Bool) :
    Except String (ExecResult T) :=
  match activeObject with
  | none => Except.error "AttributeError: no active object"
  | some sN =>
    match sceneO tN with
    | none => Except.error ("KeyError: " ++ tN ++ " not found")
    | some _ =>
      match sceneO sN with
      | none => Except.error ("KeyError: " ++ sN ++ " not found")
      | some m0 =>
        Except.ok (execute ti deform sN tN
          (fun n => (sceneO n).getD []) m0 mods0 applyPref)

/-!
### Concrete scenario fixtures

Closed instances of the geometry parameters, used to evaluate the model on
concrete inputs.  Triangles are labelled by rationals; `tiEq` intersects two
triangles exactly when they carry the same label, `tiTrue` always intersects.
-/

/-- Exact triangle test for concrete scenarios: equal labels intersect. -/
def tiEq : ℚ → ℚ → Bool := fun x y => x == y

/-- Exact triangle test that reports every pair as intersecting. -/
def tiTrue : ℚ → ℚ → Bool := fun _ _ => true

/-- Deformation applier that leaves the mesh unchanged at every offset. -/
def deformId : List ℚ → ℚ → List ℚ := fun m _ => m

/-- Deformation applier for the step scenario of the spec: the deformed
subject still touches the target (label `2`) at offsets below `0.03` and is
clear of it (label `9`) from `0.03` on. -/
def deform1 : List ℚ → ℚ → List ℚ := fun _ off => if off < 3 / 100 then [2] else [9]

/-- Scene with a single target object `T` of one triangle labelled `2`. -/
def rest1 : String → List ℚ := fun n => if n = "T" then [2] else []

/-- Scene with objects `A` and `B` of one triangle each, same label. -/
def sceneAB : String → List ℚ := fun n =>
  if n = "A" then [1] else if n = "B" then [1] else []

/-- Scene where only object `A` has geometry; everything else is empty. -/
def sceneA : String → List ℚ := fun n => if n = "A" then [1] else []

/-- Fallible scene resolving `S` and `T`, both one triangle labelled `2`. -/
def sceneSome : String → Option (List ℚ) := fun n =>
  if n = "S" then some [2] else if n = "T" then some [2] else none

/-- Fallible scene resolving only `S`; every other name is missing. -/
def sceneMiss : String → Option (List ℚ) := fun n =>
  if n = "S" then some [1] else none

/-! ### List helpers -/

theorem getD_append_len {α : Type} (l : List α) (a d : α) :
    (l ++ [a]).getD l.length d = a := by
  induction l with
  | nil => rfl
  | cons x xs ih => simp [List.getD, ih]

theorem eraseIdx_append_len {α : Type} (l : List α) (a : α) :
    (l ++ [a]).eraseIdx l.length = l := by
  induction l with
  | nil => rfl
  | cons x xs ih => simp [List.eraseIdx, ih]

/-! ### Oracle lemmas -/

theorem overlap_isEmpty_false_iff {T : Type} (ti : T → T → Bool) (m1 m2 : List T) :
    (overlap ti m1 m2).isEmpty = false ↔
      ∃ t1 ∈ m1, ∃ t2 ∈ m2, ti t1 t2 = true := by
  rw [← Bool.not_eq_true, List.isEmpty_iff]
  simp [overlap, List.eq_nil_iff_forall_not_mem, List.mem_filter]
  tauto

/-- On a two-element object list with distinct names, the double loop of
`intersection_check` tests exactly the two ordered pairs. -/
theorem intersection_check_pair {T : Type} (ti : T → T → Bool)
    (scene : String → List T) (a b : String) (h : a ≠ b) :
    intersection_check ti scene [a, b] =
      ((!(overlap ti (scene a) (scene b)).isEmpty) ||
       (!(overlap ti (scene b) (scene a)).isEmpty)) := by
  have hab : (a == b) = false := beq_eq_false_iff_ne.mpr h
  have hba : (b == a) = false := beq_eq_false_iff_ne.mpr (Ne.symm h)
  simp only [intersection_check, List.foldl, beq_self_eq_true, hab, hba,
    if_true, if_false, Bool.false_eq_true]
  cases hx : (overlap ti (scene a) (scene b)).isEmpty <;>
    cases hy : (overlap ti (scene b) (scene a)).isEmpty <;> simp [hx, hy]

/-- When both entries of the object list carry the same name, every pair is
skipped by the `obj_now == obj_next` guard and the check returns `False`. -/
theorem intersection_check_same_name {T : Type} (ti : T → T → Bool)
    (scene : String → List T) (a : String) :
    intersection_check ti scene [a, a] = false := by
  simp [intersection_check, List.foldl]

/-! ### Loop lemmas -/

/-- One pass of the `while` loop: the trial deformation is evaluated on the
pre-trial mesh at the current offset; afterwards the undo restores the mesh to
its pre-trial data while the Shrinkwrap modifier created for the trial stays
on the stack, and on rejection the loop continues with `offset + step`. -/
theorem searchLoop_succ {T : Type} (ti : T → T → Bool)
    (deform : List T → ℚ → List T) (sN tN : String) (rest : String → List T)
    (n : Nat) (st : Snapshot T) (us : List (Snapshot T)) (off : ℚ)
    (iters calls : Nat) (tried : List ℚ) :
    searchLoop ti deform sN tN rest (n + 1) st us off iters calls tried =
      (if intersectsAtOffset ti deform sN tN rest st.mesh off = false then
        { foundGoodOffset := true, offset := off, iterations := iters + 1,
          state := { mesh := st.mesh, mods := st.mods ++ [off] },
          undoStack := us, oracleCalls := calls + 1, tried := tried ++ [off] }
      else
        searchLoop ti deform sN tN rest n
          { mesh := st.mesh, mods := st.mods ++ [off] } us (off + step)
          (iters + 1) (calls + 1) (tried ++ [off])) := by
  simp only [searchLoop, create_shrinkwrap_modifier, modifier_apply, undo_push,
    ed_undo, intersectsAtOffset, List.length_append, List.length_cons,
    List.length_nil, Nat.zero_add, Nat.add_sub_cancel, getD_append_len,
    eraseIdx_append_len]

/-- Splitting off the first of `n + 1` ascending step offsets. -/
theorem range_offsets_succ (off : ℚ) (n : Nat) :
    (List.range (n + 1)).map (fun j : Nat => off + (j : ℚ) * step) =
      off :: (List.range n).map (fun j : Nat => (off + step) + (j : ℚ) * step) := by
  rw [List.range_succ_eq_map, List.map_cons, List.map_map]
  refine congrArg₂ _ (by norm_num) (List.map_congr_left ?_)
  intro j _
  simp only [Function.comp_apply]
  push_cast
  ring

/-- Creating a Shrinkwrap modifier and immediately applying it deforms the
mesh data at exactly the offset the modifier was created with. -/
theorem create_apply_mesh {T : Type} (deform : List T → ℚ → List T) (off : ℚ)
    (st : Snapshot T) :
    (modifier_apply deform (create_shrinkwrap_modifier off st).1
      (create_shrinkwrap_modifier off st).2).mesh = deform st.mesh off := by
  simp [create_shrinkwrap_modifier, modifier_apply, getD_append_len]

/-- Creating a Shrinkwrap modifier and immediately applying it removes it
again from the modifier stack. -/
theorem create_apply_mods {T : Type} (deform : List T → ℚ → List T) (off : ℚ)
    (st : Snapshot T) :
    (modifier_apply deform (create_shrinkwrap_modifier off st).1
      (create_shrinkwrap_modifier off st).2).mods = st.mods := by
  simp [create_shrinkwrap_modifier, modifier_apply, eraseIdx_append_len]

section LoopLemmas

variable {T : Type} (ti : T → T → Bool) (deform : List T → ℚ → List T)
  (sN tN : String) (rest : String → List T)

/-- If the oracle intersects at the first `k` step offsets and is
intersection-free at the `k`-th one (`k` within the remaining budget), the
loop stops at iteration `k + 1` with that offset, having queried the oracle
once per iteration; the final mesh is the pre-search mesh and the stack holds
the `k + 1` leftover trial modifiers. -/
theorem searchLoop_first_success :
    ∀ (k n : Nat) (st : Snapshot T) (us : List (Snapshot T)) (off : ℚ)
      (iters calls : Nat) (tried : List ℚ),
    k < n →
    (∀ j < k, intersectsAtOffset ti deform sN tN rest st.mesh
      (off + (j : ℚ) * step) = true) →
    intersectsAtOffset ti deform sN tN rest st.mesh (off + (k : ℚ) * step) = false →
    searchLoop ti deform sN tN rest n st us off iters calls tried =
      { foundGoodOffset := true, offset := off + (k : ℚ) * step,
        iterations := iters + k + 1,
        state :=
          { mesh := st.mesh,
            mods := st.mods ++
              (List.range (k + 1)).map (fun j : Nat => off + (j : ℚ) * step) },
        undoStack := us, oracleCalls := calls + k + 1,
        tried := tried ++
          (List.range (k + 1)).map (fun j : Nat => off + (j : ℚ) * step) } := by
  intro k
  induction k with
  | zero =>
    intro n st us off iters calls tried hkn _ hO
    obtain ⟨n', rfl⟩ : ∃ n', n = n' + 1 := ⟨n - 1, by omega⟩
    rw [searchLoop_succ]
    have hO' : intersectsAtOffset ti deform sN tN rest st.mesh off = false := by
      have e : off + ((0 : ℕ) : ℚ) * step = off := by norm_num
      rwa [e] at hO
    rw [if_pos hO']
    have h1 : (List.range (0 + 1)).map (fun j : Nat => off + (j : ℚ) * step) = [off] := by
      rw [range_offsets_succ]
      simp
    rw [h1]
    norm_num
  | succ k' ih =>
    intro n st us off iters calls tried hkn hTrue hFalse
    obtain ⟨n', rfl⟩ : ∃ n', n = n' + 1 := ⟨n - 1, by omega⟩
    rw [searchLoop_succ]
    have h0 : intersectsAtOffset ti deform sN tN rest st.mesh off = true := by
      have e : off + ((0 : ℕ) : ℚ) * step = off := by norm_num
      have := hTrue 0 (by omega)
      rwa [e] at this
    rw [if_neg (by simp [h0])]
    have hTrue' : ∀ j < k',
        intersectsAtOffset ti deform sN tN rest
          (Snapshot.mesh { mesh := st.mesh, mods := st.mods ++ [off] })
          ((off + step) + (j : ℚ) * step) = true := by
      intro j hj
      have e : off + ((j + 1 : ℕ) : ℚ) * step = (off + step) + (j : ℚ) * step := by
        push_cast; ring
      have := hTrue (j + 1) (by omega)
      rwa [e] at this
    have hFalse' :
        intersectsAtOffset ti deform sN tN rest
          (Snapshot.mesh { mesh := st.mesh, mods := st.mods ++ [off] })
          ((off + step) + (k' : ℚ) * step) = false := by
      have e : off + ((k' + 1 : ℕ) : ℚ) * step = (off + step) + (k' : ℚ) * step := by
        push_cast; ring
      rwa [e] at hFalse
    rw [ih n' { mesh := st.mesh, mods := st.mods ++ [off] } us (off + step)
      (iters + 1) (calls + 1) (tried ++ [off]) (by omega) hTrue' hFalse']
    have eoff : (off + step) + (k' : ℚ) * step = off + ((k' + 1 : ℕ) : ℚ) * step := by
      push_cast; ring
    have elist : ∀ l : List ℚ, (l ++ [off]) ++
        (List.range (k' + 1)).map (fun j : Nat => (off + step) + (j : ℚ) * step) =
        l ++ (List.range (k' + 1 + 1)).map (fun j : Nat => off + (j : ℚ) * step) := by
      intro l
      conv_rhs => rw [range_offsets_succ]
      rw [List.append_assoc, List.singleton_append]
    rw [eoff, elist st.mods, elist tried]
    congr 1 <;> omega

/-- If the loop exhausts its budget (`foundGoodOffset = false`), it ran all
`n` iterations, queried the oracle once per iteration, every queried offset
intersected, the mesh is back to the pre-search mesh, and the stack holds one
leftover trial modifier per iteration. -/
theorem searchLoop_notfound_spec :
    ∀ (n : Nat) (st : Snapshot T) (us : List (Snapshot T)) (off : ℚ)
      (iters calls : Nat) (tried : List ℚ),
    (searchLoop ti deform sN tN rest n st us off iters calls tried).foundGoodOffset
        = false →
    searchLoop ti deform sN tN rest n st us off iters calls tried =
      { foundGoodOffset := false, offset := off + (n : ℚ) * step,
        iterations := iters + n,
        state :=
          { mesh := st.mesh,
            mods := st.mods ++
              (List.range n).map (fun j : Nat => off + (j : ℚ) * step) },
        undoStack := us, oracleCalls := calls + n,
        tried := tried ++ (List.range n).map (fun j : Nat => off + (j : ℚ) * step) } ∧
      ∀ j < n, intersectsAtOffset ti deform sN tN rest st.mesh
        (off + (j : ℚ) * step) = true := by
  intro n
  induction n with
  | zero =>
    intro st us off iters calls tried _
    constructor
    · simp only [searchLoop, List.range_zero, List.map_nil, List.append_nil]
      norm_num
    · omega
  | succ n' ih =>
    intro st us off iters calls tried h
    rw [searchLoop_succ] at h ⊢
    by_cases hO : intersectsAtOffset ti deform sN tN rest st.mesh off = false
    · rw [if_pos hO] at h
      simp at h
    · rw [if_neg hO] at h ⊢
      have h0 : intersectsAtOffset ti deform sN tN rest st.mesh off = true := by
        revert hO; cases intersectsAtOffset ti deform sN tN rest st.mesh off <;> simp
      obtain ⟨hrec, horacle⟩ := ih { mesh := st.mesh, mods := st.mods ++ [off] } us
        (off + step) (iters + 1) (calls + 1) (tried ++ [off]) h
      constructor
      · rw [hrec]
        have eoff : (off + step) + (n' : ℚ) * step = off + ((n' + 1 : ℕ) : ℚ) * step := by
          push_cast; ring
        have elist : ∀ l : List ℚ, (l ++ [off]) ++
            (List.range n').map (fun j : Nat => (off + step) + (j : ℚ) * step) =
            l ++ (List.range (n' + 1)).map (fun j : Nat => off + (j : ℚ) * step) := by
          intro l
          rw [range_offsets_succ, List.append_assoc, List.singleton_append]
        simp only [eoff, elist]
        norm_num [Nat.add_assoc, Nat.add_comm, Nat.add_left_comm]
      · intro j hj
        match j with
        | 0 =>
          have e : off + ((0 : ℕ) : ℚ) * step = off := by norm_num
          rwa [e]
        | j' + 1 =>
          have e : off + ((j' + 1 : ℕ) : ℚ) * step = (off + step) + (j' : ℚ) * step := by
            push_cast; ring
          rw [e]
          exact horacle j' (by omega)

/-- If the loop reports success, some `k` below the budget was the first
step offset whose trial did not intersect. -/
theorem searchLoop_found_oracle :
    ∀ (n : Nat) (st : Snapshot T) (us : List (Snapshot T)) (off : ℚ)
      (iters calls : Nat) (tried : List ℚ),
    (searchLoop ti deform sN tN rest n st us off iters calls tried).foundGoodOffset
        = true →
    ∃ k < n,
      intersectsAtOffset ti deform sN tN rest st.mesh (off + (k : ℚ) * step) = false ∧
      ∀ j < k, intersectsAtOffset ti deform sN tN rest st.mesh
        (off + (j : ℚ) * step) = true := by
  intro n
  induction n with
  | zero =>
    intro st us off iters calls tried h
    simp [searchLoop] at h
  | succ n' ih =>
    intro st us off iters calls tried h
    rw [searchLoop_succ] at h
    by_cases hO : intersectsAtOffset ti deform sN tN rest st.mesh off = false
    · refine ⟨0, by omega, ?_, by omega⟩
      have e : off + ((0 : ℕ) : ℚ) * step = off := by norm_num
      rwa [e]
    · rw [if_neg hO] at h
      have h0 : intersectsAtOffset ti deform sN tN rest st.mesh off = true := by
        revert hO; cases intersectsAtOffset ti deform sN tN rest st.mesh off <;> simp
      obtain ⟨k', hk', hF, hT⟩ := ih { mesh := st.mesh, mods := st.mods ++ [off] } us
        (off + step) (iters + 1) (calls + 1) (tried ++ [off]) h
      refine ⟨k' + 1, by omega, ?_, ?_⟩
      · have e : off + ((k' + 1 : ℕ) : ℚ) * step = (off + step) + (k' : ℚ) * step := by
          push_cast; ring
        rwa [e]
      · intro j hj
        match j with
        | 0 =>
          have e : off + ((0 : ℕ) : ℚ) * step = off := by norm_num
          rwa [e]
        | j' + 1 =>
          have e : off + ((j' + 1 : ℕ) : ℚ) * step = (off + step) + (j' : ℚ) * step := by
            push_cast; ring
          rw [e]
          exact hT j' (by omega)

/-- Success characterization of `execute`: some `k < 20` was the first step
offset whose trial did not intersect; the search stopped there after `k + 1`
iterations and oracle calls, and the final commit re-used exactly that
offset. -/
theorem execute_found_spec (m0 : List T) (mods0 : List ℚ) (ap : Bool)
    (h : (execute ti deform sN tN rest m0 mods0 ap).foundGoodOffset = true) :
    ∃ k < bound,
      (execute ti deform sN tN rest m0 mods0 ap).offset = (k : ℚ) * step ∧
      (execute ti deform sN tN rest m0 mods0 ap).iterations = k + 1 ∧
      (execute ti deform sN tN rest m0 mods0 ap).oracleCalls = k + 1 ∧
      (execute ti deform sN tN rest m0 mods0 ap).tried =
        (List.range (k + 1)).map (fun j : Nat => (j : ℚ) * step) ∧
      intersectsAtOffset ti deform sN tN rest m0 ((k : ℚ) * step) = false ∧
      (∀ j < k, intersectsAtOffset ti deform sN tN rest m0 ((j : ℚ) * step) = true) ∧
      (execute ti deform sN tN rest m0 mods0 ap).commitOffset =
        some ((k : ℚ) * step) ∧
      (ap = true →
        (execute ti deform sN tN rest m0 mods0 ap).state.mesh =
          deform m0 ((k : ℚ) * step)) ∧
      (ap = false →
        (execute ti deform sN tN rest m0 mods0 ap).state.mesh = m0 ∧
        (execute ti deform sN tN rest m0 mods0 ap).state.mods.getLast? =
          some ((k : ℚ) * step)) := by
  have hzero : ∀ q : ℚ, (0 : ℚ) + q = q := fun q => zero_add q
  have hlo : (searchLoop ti deform sN tN rest bound
      { mesh := m0, mods := mods0 } [] 0 0 0 []).foundGoodOffset = true := by
    by_contra hc
    have hc' : (searchLoop ti deform sN tN rest bound
        { mesh := m0, mods := mods0 } [] 0 0 0 []).foundGoodOffset = false := by
      revert hc
      cases (searchLoop ti deform sN tN rest bound
        { mesh := m0, mods := mods0 } [] 0 0 0 []).foundGoodOffset <;> simp
    rw [execute, if_neg (by simp [hc'])] at h
    simp at h
  obtain ⟨k, hk, hF, hT⟩ := searchLoop_found_oracle ti deform sN tN rest bound
    { mesh := m0, mods := mods0 } [] 0 0 0 [] hlo
  have hrec := searchLoop_first_success ti deform sN tN rest k bound
    { mesh := m0, mods := mods0 } [] 0 0 0 [] hk hT hF
  have hF0 : intersectsAtOffset ti deform sN tN rest m0 ((k : ℚ) * step) = false := by
    rwa [hzero] at hF
  have hT0 : ∀ j < k,
      intersectsAtOffset ti deform sN tN rest m0 ((j : ℚ) * step) = true := by
    intro j hj
    have := hT j hj
    rwa [hzero] at this
  refine ⟨k, hk, ?_, ?_, ?_, ?_, hF0, hT0, ?_, ?_, ?_⟩
  · cases ap <;> simp [execute, hrec, hzero, create_shrinkwrap_modifier]
  · cases ap <;> simp [execute, hrec, hzero, create_shrinkwrap_modifier]
  · cases ap <;> simp [execute, hrec, hzero, create_shrinkwrap_modifier]
  · cases ap <;> simp [execute, hrec, hzero, create_shrinkwrap_modifier]
  · cases ap <;> simp [execute, hrec, hzero, create_shrinkwrap_modifier]
  · intro hap
    subst hap
    simp [execute, hrec, hzero]
    rw [create_apply_mesh]
  · intro hap
    subst hap
    simp [execute, hrec, hzero, create_shrinkwrap_modifier, List.getLast?_concat]

/-- Exhaustion characterization of `execute`: if the search failed, every one
of the 20 step offsets was queried and intersected; the loop ran exactly 20
iterations with one oracle call each and no commit happened. -/
theorem execute_notfound_spec (m0 : List T) (mods0 : List ℚ) (ap : Bool)
    (h : (execute ti deform sN tN rest m0 mods0 ap).foundGoodOffset = false) :
    (execute ti deform sN tN rest m0 mods0 ap).iterations = bound ∧
    (execute ti deform sN tN rest m0 mods0 ap).oracleCalls = bound ∧
    (execute ti deform sN tN rest m0 mods0 ap).offset = (bound : ℚ) * step ∧
    (execute ti deform sN tN rest m0 mods0 ap).tried =
      (List.range bound).map (fun j : Nat => (j : ℚ) * step) ∧
    (execute ti deform sN tN rest m0 mods0 ap).state.mesh = m0 ∧
    (execute ti deform sN tN rest m0 mods0 ap).commitOffset = none ∧
    ∀ j < bound, intersectsAtOffset ti deform sN tN rest m0 ((j : ℚ) * step) = true := by
  have hzero : ∀ q : ℚ, (0 : ℚ) + q = q := fun q => zero_add q
  have hlo : (searchLoop ti deform sN tN rest bound
      { mesh := m0, mods := mods0 } [] 0 0 0 []).foundGoodOffset = false := by
    by_contra hc
    have hc' : (searchLoop ti deform sN tN rest bound
        { mesh := m0, mods := mods0 } [] 0 0 0 []).foundGoodOffset = true := by
      revert hc
      cases (searchLoop ti deform sN tN rest bound
        { mesh := m0, mods := mods0 } [] 0 0 0 []).foundGoodOffset <;> simp
    rw [execute, if_pos hc'] at h
    revert h
    cases ap <;> simp
  obtain ⟨hrec, horacle⟩ := searchLoop_notfound_spec ti deform sN tN rest bound
    { mesh := m0, mods := mods0 } [] 0 0 0 [] hlo
  have horacle0 : ∀ j < bound,
      intersectsAtOffset ti deform sN tN rest m0 ((j : ℚ) * step) = true := by
    intro j hj
    have := horacle j hj
    rwa [hzero] at this
  refine ⟨?_, ?_, ?_, ?_, ?_, ?_, horacle0⟩ <;>
    simp [execute, hlo, hrec, hzero]

/-- Forward characterization: when the first `k` step offsets intersect and
the `k`-th does not (within the bound), `execute` succeeds at exactly that
offset after `k + 1` iterations and oracle calls and commits it. -/
theorem execute_first_success (m0 : List T) (mods0 : List ℚ) (ap : Bool)
    (k : Nat) (hk : k < bound)
    (hT : ∀ j < k, intersectsAtOffset ti deform sN tN rest m0 ((j : ℚ) * step) = true)
    (hF : intersectsAtOffset ti deform sN tN rest m0 ((k : ℚ) * step) = false) :
    (execute ti deform sN tN rest m0 mods0 ap).foundGoodOffset = true ∧
    (execute ti deform sN tN rest m0 mods0 ap).offset = (k : ℚ) * step ∧
    (execute ti deform sN tN rest m0 mods0 ap).iterations = k + 1 ∧
    (execute ti deform sN tN rest m0 mods0 ap).oracleCalls = k + 1 ∧
    (execute ti deform sN tN rest m0 mods0 ap).tried =
      (List.range (k + 1)).map (fun j : Nat => (j : ℚ) * step) ∧
    (execute ti deform sN tN rest m0 mods0 ap).commitOffset =
      some ((k : ℚ) * step) := by
  have hzero : ∀ q : ℚ, (0 : ℚ) + q = q := fun q => zero_add q
  have hT' : ∀ j < k, intersectsAtOffset ti deform sN tN rest m0
      ((0 : ℚ) + (j : ℚ) * step) = true := by
    intro j hj
    rw [hzero]
    exact hT j hj
  have hF' : intersectsAtOffset ti deform sN tN rest m0
      ((0 : ℚ) + (k : ℚ) * step) = false := by
    rw [hzero]
    exact hF
  have hrec := searchLoop_first_success ti deform sN tN rest k bound
    { mesh := m0, mods := mods0 } [] 0 0 0 [] hk hT' hF'
  refine ⟨?_, ?_, ?_, ?_, ?_, ?_⟩ <;> cases ap <;>
    simp [execute, hrec, hzero, create_shrinkwrap_modifier]

/-- The subject's mesh data at loop exit is the mesh data at loop entry,
whether the search succeeded or exhausted its budget. -/
theorem searchLoop_mesh_invariant (n : Nat) (st : Snapshot T)
    (us : List (Snapshot T)) (off : ℚ) (iters calls : Nat) (tried : List ℚ) :
    (searchLoop ti deform sN tN rest n st us off iters calls tried).state.mesh
      = st.mesh := by
  rcases Bool.eq_false_or_eq_true
      ((searchLoop ti deform sN tN rest n st us off iters calls tried).foundGoodOffset)
    with hf | hf
  · obtain ⟨k, hk, hF, hT⟩ :=
      searchLoop_found_oracle ti deform sN tN rest n st us off iters calls tried hf
    rw [searchLoop_first_success ti deform sN tN rest k n st us off iters calls
      tried hk hT hF]
  · obtain ⟨hrec, _⟩ :=
      searchLoop_notfound_spec ti deform sN tN rest n st us off iters calls tried hf
    rw [hrec]

end LoopLemmas

theorem overlap_nil_right {T : Type} (ti : T → T → Bool) (m : List T) :
    overlap ti m [] = [] := by
  simp [overlap]

theorem overlap_nil_left {T : Type} (ti : T → T → Bool) (m : List T) :
    overlap ti [] m = [] := rfl

theorem getLast?_map_range (f : Nat → ℚ) (k : Nat) :
    ((List.range (k + 1)).map f).getLast? = some (f k) := by
  rw [List.range_succ, List.map_append]
  simp

/-! ### Claim theorems -/

/-- C4: the oracle returns `true` if and only if some pair of triangles, one
from each of the two (distinct-named) input meshes, passes the exact
triangle-triangle intersection test; it returns `false` when no pair does.
(The host's exact test `ti` is symmetric, which is assumed here.) -/
theorem claim_C4_oracle_exact {T : Type} (ti : T → T → Bool)
    (scene : String → List T) (a b : String) (hab : a ≠ b)
    (hsymm : ∀ x y, ti x y = ti y x) :
    intersection_check ti scene [a, b] = true ↔
      ∃ t1 ∈ scene a, ∃ t2 ∈ scene b, ti t1 t2 = true := by
  rw [intersection_check_pair ti scene a b hab]
  simp only [Bool.or_eq_true, Bool.not_eq_true', overlap_isEmpty_false_iff]
  constructor
  · rintro (⟨t1, ht1, t2, ht2, hti⟩ | ⟨t2, ht2, t1, ht1, hti⟩)
    · exact ⟨t1, ht1, t2, ht2, hti⟩
    · refine ⟨t1, ht1, t2, ht2, ?_⟩
      rw [hsymm]
      exact hti
  · rintro ⟨t1, ht1, t2, ht2, hti⟩
    exact Or.inl ⟨t1, ht1, t2, ht2, hti⟩

/-- Witness for C4 on a concrete scene with two touching one-triangle
objects. -/
theorem claim_C4_oracle_exact_witness :
    intersection_check tiTrue sceneAB ["A", "B"] = true ↔
      ∃ t1 ∈ sceneAB "A", ∃ t2 ∈ sceneAB "B", tiTrue t1 t2 = true :=
  claim_C4_oracle_exact tiTrue sceneAB "A" "B" (by decide) (fun _ _ => rfl)

/-- C5: the oracle is symmetric in its two objects: swapping the two entries
of the object list gives the same answer. -/
theorem claim_C5_symmetry {T : Type} (ti : T → T → Bool)
    (scene : String → List T) (a b : String) :
    intersection_check ti scene [a, b] = intersection_check ti scene [b, a] := by
  by_cases hab : a = b
  · subst hab
    rfl
  · rw [intersection_check_pair ti scene a b hab,
      intersection_check_pair ti scene b a (Ne.symm hab)]
    exact Bool.or_comm _ _

/-- C8: against an object with an empty (zero-triangle) mesh the oracle
returns `false`, whatever the other mesh is. -/
theorem claim_C8_empty_mesh {T : Type} (ti : T → T → Bool)
    (scene : String → List T) (a b : String) (hb : scene b = []) :
    intersection_check ti scene [a, b] = false := by
  by_cases hab : a = b
  · subst hab
    exact intersection_check_same_name ti scene a
  · rw [intersection_check_pair ti scene a b hab, hb, overlap_nil_right,
      overlap_nil_left]
    rfl

/-- Witness for C8: object `B` of the concrete scene has no triangles. -/
theorem claim_C8_empty_mesh_witness :
    sceneA "B" = [] ∧ intersection_check tiTrue sceneA ["A", "B"] = false :=
  ⟨rfl, claim_C8_empty_mesh tiTrue sceneA "A" "B" rfl⟩

/-- C10: when the subject and the configured target are the same object (both
entries of the object list carry the same name), every pair comparison is
skipped, the oracle returns `false`, and the search accepts offset `0` on its
first iteration. -/
theorem claim_C10_same_object {T : Type} (ti : T → T → Bool)
    (deform : List T → ℚ → List T) (n : String) (rest : String → List T)
    (m0 : List T) (mods0 : List ℚ) (ap : Bool) :
    intersection_check ti (sceneAt n (deform m0 0) rest) [n, n] = false ∧
    (execute ti deform n n rest m0 mods0 ap).foundGoodOffset = true ∧
    (execute ti deform n n rest m0 mods0 ap).offset = 0 ∧
    (execute ti deform n n rest m0 mods0 ap).iterations = 1 ∧
    (execute ti deform n n rest m0 mods0 ap).tried = [0] := by
  have hF : intersectsAtOffset ti deform n n rest m0 (((0 : ℕ) : ℚ) * step) = false :=
    intersection_check_same_name ti _ n
  obtain ⟨h1, h2, h3, _, h5, _⟩ := execute_first_success ti deform n n rest m0
    mods0 ap 0 (by norm_num [bound]) (fun j hj => absurd hj (Nat.not_lt_zero j)) hF
  refine ⟨intersection_check_same_name ti _ n, h1, ?_, h3, ?_⟩
  · rw [h2]
    norm_num
  · rw [h5]
    norm_num [List.range_succ]

/-- C7: search-state invariants: at loop exit the iteration count is at most
the bound (20), the offset and every offset the oracle was queried at are
non-negative, and the oracle was queried exactly once per iteration. -/
theorem claim_C7_invariants {T : Type} (ti : T → T → Bool)
    (deform : List T → ℚ → List T) (sN tN : String) (rest : String → List T)
    (m0 : List T) (mods0 : List ℚ) (ap : Bool) :
    (execute ti deform sN tN rest m0 mods0 ap).iterations ≤ bound ∧
    0 ≤ (execute ti deform sN tN rest m0 mods0 ap).offset ∧
    (∀ o ∈ (execute ti deform sN tN rest m0 mods0 ap).tried, 0 ≤ o) ∧
    (execute ti deform sN tN rest m0 mods0 ap).oracleCalls =
      (execute ti deform sN tN rest m0 mods0 ap).iterations := by
  have hstep : (0 : ℚ) ≤ step := by norm_num [step]
  have htried : ∀ (l : List ℚ) (k : Nat),
      l = (List.range k).map (fun j : Nat => (j : ℚ) * step) → ∀ o ∈ l, 0 ≤ o := by
    rintro l k rfl o ho
    simp only [List.mem_map, List.mem_range] at ho
    obtain ⟨j, _, rfl⟩ := ho
    exact mul_nonneg (Nat.cast_nonneg j) hstep
  rcases Bool.eq_false_or_eq_true
      ((execute ti deform sN tN rest m0 mods0 ap).foundGoodOffset) with hf | hf
  · obtain ⟨k, hk, ho, hi, hc, htr, _, _, _, _, _⟩ :=
      execute_found_spec ti deform sN tN rest m0 mods0 ap hf
    refine ⟨?_, ?_, htried _ (k + 1) htr, by rw [hc, hi]⟩
    · rw [hi]
      exact hk
    · rw [ho]
      exact mul_nonneg (Nat.cast_nonneg k) hstep
  · obtain ⟨h1, h2, h3, h4, _, _, _⟩ :=
      execute_notfound_spec ti deform sN tN rest m0 mods0 ap hf
    refine ⟨by rw [h1], ?_, htried _ bound h4, by rw [h2, h1]⟩
    rw [h3]
    exact mul_nonneg (Nat.cast_nonneg bound) hstep

/-- C3: whenever the search succeeds, the final commit (the Shrinkwrap
modifier created after the loop, and its application to the mesh data when
the `apply_shrinkwrap` preference is set) uses exactly the accepted offset of
the last (non-intersecting) trial — the last offset the oracle was queried
at — with no re-rounding or drift. -/
theorem claim_C3_commit_exact_offset {T : Type} (ti : T → T → Bool)
    (deform : List T → ℚ → List T) (sN tN : String) (rest : String → List T)
    (m0 : List T) (mods0 : List ℚ) (ap : Bool)
    (h : (execute ti deform sN tN rest m0 mods0 ap).foundGoodOffset = true) :
    (execute ti deform sN tN rest m0 mods0 ap).commitOffset =
      some ((execute ti deform sN tN rest m0 mods0 ap).offset) ∧
    (execute ti deform sN tN rest m0 mods0 ap).tried.getLast? =
      some ((execute ti deform sN tN rest m0 mods0 ap).offset) ∧
    (ap = true → (execute ti deform sN tN rest m0 mods0 ap).state.mesh =
      deform m0 ((execute ti deform sN tN rest m0 mods0 ap).offset)) ∧
    (ap = false → (execute ti deform sN tN rest m0 mods0 ap).state.mods.getLast? =
      some ((execute ti deform sN tN rest m0 mods0 ap).offset)) := by
  obtain ⟨k, hk, ho, hi, hc, htr, hF, hT, hcom, hat, haf⟩ :=
    execute_found_spec ti deform sN tN rest m0 mods0 ap h
  refine ⟨by rw [hcom, ho], ?_, ?_, ?_⟩
  · rw [htr, ho, getLast?_map_range]
  · intro hap
    rw [ho]
    exact hat hap
  · intro hap
    rw [ho]
    exact (haf hap).2

/-- Witness for C3 at a run that succeeds immediately: subject and target
meshes are disjoint at offset `0`. -/
theorem claim_C3_commit_exact_offset_witness :
    (execute tiEq deformId "S" "T" rest1 [1] [] true).foundGoodOffset = true ∧
    (execute tiEq deformId "S" "T" rest1 [1] [] true).commitOffset =
      some ((execute tiEq deformId "S" "T" rest1 [1] [] true).offset) ∧
    (execute tiEq deformId "S" "T" rest1 [1] [] true).tried.getLast? =
      some ((execute tiEq deformId "S" "T" rest1 [1] [] true).offset) ∧
    (execute tiEq deformId "S" "T" rest1 [1] [] true).state.mesh =
      deformId [1] ((execute tiEq deformId "S" "T" rest1 [1] [] true).offset) := by
  have hF : intersectsAtOffset tiEq deformId "S" "T" rest1 [1]
      (((0 : ℕ) : ℚ) * step) = false := by
    have e : ((0 : ℕ) : ℚ) * step = 0 := by norm_num
    rw [e]
    decide
  have hfound := (execute_first_success tiEq deformId "S" "T" rest1 [1] [] true 0
    (by norm_num [bound]) (fun j hj => absurd hj (Nat.not_lt_zero j)) hF).1
  obtain ⟨h1, h2, h3, _⟩ :=
    claim_C3_commit_exact_offset tiEq deformId "S" "T" rest1 [1] [] true hfound
  exact ⟨hfound, h1, h2, h3 rfl⟩

/-- C6 (amended): after a rejected (intersecting) trial the subject's mesh
geometry is rolled back to exactly its pre-trial data — and the mesh at loop
exit is the mesh at loop entry — but the trial is not free of persistent side
effects: the undo returns to the state recorded by `undo_push`, taken after
`create_shrinkwrap_modifier`, so the Shrinkwrap modifier created for the
trial stays on the subject's modifier stack. -/
theorem claim_C6_trial_rollback {T : Type} (ti : T → T → Bool)
    (deform : List T → ℚ → List T) (sN tN : String) (rest : String → List T)
    (n : Nat) (st : Snapshot T) (us : List (Snapshot T)) (off : ℚ)
    (iters calls : Nat) (tried : List ℚ)
    (h : intersectsAtOffset ti deform sN tN rest st.mesh off = true) :
    searchLoop ti deform sN tN rest (n + 1) st us off iters calls tried =
      searchLoop ti deform sN tN rest n
        { mesh := st.mesh, mods := st.mods ++ [off] } us (off + step)
        (iters + 1) (calls + 1) (tried ++ [off]) ∧
    (searchLoop ti deform sN tN rest (n + 1) st us off iters calls tried).state.mesh
      = st.mesh := by
  constructor
  · rw [searchLoop_succ, if_neg (by simp [h])]
  · exact searchLoop_mesh_invariant ti deform sN tN rest (n + 1) st us off
      iters calls tried

/-- Witness for the amended C6 at a concrete always-intersecting trial. -/
theorem claim_C6_trial_rollback_witness :
    intersectsAtOffset tiEq deformId "S" "T" rest1 [2] 0 = true ∧
    (searchLoop tiEq deformId "S" "T" rest1 1
        { mesh := [2], mods := [] } [] 0 0 0 [] =
      searchLoop tiEq deformId "S" "T" rest1 0
        { mesh := [2], mods := [0] } [] (0 + step) 1 1 [0]) ∧
    (searchLoop tiEq deformId "S" "T" rest1 1
        { mesh := [2], mods := [] } [] 0 0 0 []).state.mesh = [2] := by
  have h : intersectsAtOffset tiEq deformId "S" "T" rest1
      (Snapshot.mesh { mesh := [2], mods := [] }) 0 = true := by decide
  have hc := claim_C6_trial_rollback tiEq deformId "S" "T" rest1 0
    { mesh := [2], mods := [] } [] 0 0 0 [] h
  exact ⟨h, hc.1, hc.2⟩

/-- C6 as stated is false on the code: a rejected trial rolls back the mesh
geometry but leaves the Shrinkwrap modifier it created on the subject, so the
subject is not returned to its exact pre-trial state. -/
theorem claim_C6_counterexample :
    (searchLoop tiEq deformId "S" "T" rest1 1
        { mesh := [2], mods := [] } [] 0 0 0 []).state.mesh = [(2 : ℚ)] ∧
    (searchLoop tiEq deformId "S" "T" rest1 1
        { mesh := [2], mods := [] } [] 0 0 0 []).state ≠
      { mesh := [(2 : ℚ)], mods := [] } := by
  constructor
  · decide
  · decide

/-- C1: the search queries the oracle at offsets ascending from `0` in steps
of `0.01` (one per iteration, in order) and, on success, returns the first
offset in that sequence whose trial did not intersect; in particular, for a
deformation that intersects at offsets `0`, `0.01`, `0.02` and is
intersection-free at `0.03`, it returns `found = true` with offset exactly
`3/100` after exactly `4` iterations. -/
theorem claim_C1_ascending_first_success {T : Type} (ti : T → T → Bool)
    (deform : List T → ℚ → List T) (sN tN : String) (rest : String → List T)
    (m0 : List T) (mods0 : List ℚ) (ap : Bool) :
    ((execute ti deform sN tN rest m0 mods0 ap).tried =
      (List.range (execute ti deform sN tN rest m0 mods0 ap).iterations).map
        (fun j : Nat => (j : ℚ) * step)) ∧
    ((execute ti deform sN tN rest m0 mods0 ap).foundGoodOffset = true →
      (execute ti deform sN tN rest m0 mods0 ap).offset =
        (((execute ti deform sN tN rest m0 mods0 ap).iterations - 1 : ℕ) : ℚ)
          * step ∧
      intersectsAtOffset ti deform sN tN rest m0
        ((execute ti deform sN tN rest m0 mods0 ap).offset) = false ∧
      ∀ j < (execute ti deform sN tN rest m0 mods0 ap).iterations - 1,
        intersectsAtOffset ti deform sN tN rest m0 ((j : ℚ) * step) = true) ∧
    ((execute tiEq deform1 "S" "T" rest1 [1] [] true).foundGoodOffset = true ∧
      (execute tiEq deform1 "S" "T" rest1 [1] [] true).offset = 3 / 100 ∧
      (execute tiEq deform1 "S" "T" rest1 [1] [] true).iterations = 4) := by
  refine ⟨?_, ?_, ?_⟩
  · rcases Bool.eq_false_or_eq_true
      ((execute ti deform sN tN rest m0 mods0 ap).foundGoodOffset) with hf | hf
    · obtain ⟨k, _, _, hi, _, htr, _, _, _, _, _⟩ :=
        execute_found_spec ti deform sN tN rest m0 mods0 ap hf
      rw [htr, hi]
    · obtain ⟨h1, _, _, h4, _, _, _⟩ :=
        execute_notfound_spec ti deform sN tN rest m0 mods0 ap hf
      rw [h4, h1]
  · intro hf
    obtain ⟨k, hk, ho, hi, _, _, hF, hT, _, _, _⟩ :=
      execute_found_spec ti deform sN tN rest m0 mods0 ap hf
    have hsub : (execute ti deform sN tN rest m0 mods0 ap).iterations - 1 = k := by
      rw [hi]
      omega
    refine ⟨by rw [ho, hsub], by rw [ho]; exact hF, ?_⟩
    rw [hsub]
    exact hT
  · have hT : ∀ j : Nat, j < 3 → intersectsAtOffset tiEq deform1 "S" "T" rest1 [1]
        ((j : ℚ) * step) = true := by
      intro j hj
      have hj2 : j ≤ 2 := Nat.lt_succ_iff.mp hj
      have hj' : (j : ℚ) ≤ 2 := by exact_mod_cast hj2
      have hlt : (j : ℚ) * step < 3 / 100 := by
        have h2 : (j : ℚ) * step ≤ 2 * step :=
          mul_le_mul_of_nonneg_right hj' (by norm_num [step])
        refine lt_of_le_of_lt h2 ?_
        norm_num [step]
      show intersection_check tiEq
        (sceneAt "S" (deform1 [1] ((j : ℚ) * step)) rest1) ["S", "T"] = true
      rw [show deform1 [1] ((j : ℚ) * step) = [2] from by
        simp [deform1, if_pos hlt]]
      decide
    have hF : intersectsAtOffset tiEq deform1 "S" "T" rest1 [1]
        (((3 : ℕ) : ℚ) * step) = false := by
      show intersection_check tiEq
        (sceneAt "S" (deform1 [1] (((3 : ℕ) : ℚ) * step)) rest1) ["S", "T"] = false
      rw [show deform1 [1] (((3 : ℕ) : ℚ) * step) = [9] from by
        rw [show ((3 : ℕ) : ℚ) * step = 3 / 100 from by norm_num [step]]
        simp [deform1]]
      decide
    obtain ⟨h1, h2, h3, _, _, _⟩ := execute_first_success tiEq deform1 "S" "T"
      rest1 [1] [] true 3 (by norm_num [bound]) hT hF
    refine ⟨h1, ?_, by rw [h3]⟩
    rw [h2]
    norm_num [step]

/-- Witness for C1, using its own concrete scenario to discharge the
success hypothesis of the firstness part. -/
theorem claim_C1_ascending_first_success_witness :
    (execute tiEq deform1 "S" "T" rest1 [1] [] true).tried =
      (List.range (execute tiEq deform1 "S" "T" rest1 [1] [] true).iterations).map
        (fun j : Nat => (j : ℚ) * step) ∧
    (execute tiEq deform1 "S" "T" rest1 [1] [] true).offset =
      (((execute tiEq deform1 "S" "T" rest1 [1] [] true).iterations - 1 : ℕ) : ℚ)
        * step ∧
    intersectsAtOffset tiEq deform1 "S" "T" rest1 [1]
      ((execute tiEq deform1 "S" "T" rest1 [1] [] true).offset) = false := by
  obtain ⟨h1, h2, h3⟩ :=
    claim_C1_ascending_first_success tiEq deform1 "S" "T" rest1 [1] [] true
  obtain ⟨ho, hF, _⟩ := h2 h3.1
  exact ⟨h1, ho, hF⟩

/-- C2: if every trial up to the bound intersects, the controller returns
normally (no exception: the fallible entry point returns `ok`), reports
`found = false`, runs exactly 20 iterations, and queries the oracle exactly
20 times — no more, no fewer. -/
theorem claim_C2_exhaustion {T : Type} (ti : T → T → Bool)
    (deform : List T → ℚ → List T) (sN tN : String)
    (sceneO : String → Option (List T)) (m0 mt : List T) (mods0 : List ℚ)
    (ap : Bool) (hs : sceneO sN = some m0) (ht : sceneO tN = some mt)
    (H : ∀ j < bound, intersectsAtOffset ti deform sN tN
      (fun n => (sceneO n).getD []) m0 ((j : ℚ) * step) = true) :
    executeE ti deform (some sN) tN sceneO mods0 ap =
      Except.ok (execute ti deform sN tN (fun n => (sceneO n).getD []) m0 mods0 ap) ∧
    (execute ti deform sN tN (fun n => (sceneO n).getD []) m0 mods0 ap).foundGoodOffset
      = false ∧
    (execute ti deform sN tN (fun n => (sceneO n).getD []) m0 mods0 ap).iterations
      = bound ∧
    (execute ti deform sN tN (fun n => (sceneO n).getD []) m0 mods0 ap).oracleCalls
      = bound := by
  have hnf : (execute ti deform sN tN (fun n => (sceneO n).getD []) m0 mods0
      ap).foundGoodOffset = false := by
    rcases Bool.eq_false_or_eq_true ((execute ti deform sN tN
        (fun n => (sceneO n).getD []) m0 mods0 ap).foundGoodOffset) with hc | hc
    · obtain ⟨k, hk, _, _, _, _, hF, _, _, _, _⟩ := execute_found_spec ti deform
        sN tN (fun n => (sceneO n).getD []) m0 mods0 ap hc
      rw [H k hk] at hF
      exact absurd hF (by simp)
    · exact hc
  obtain ⟨h1, h2, _, _, _, _, _⟩ := execute_notfound_spec ti deform sN tN
    (fun n => (sceneO n).getD []) m0 mods0 ap hnf
  exact ⟨by simp [executeE, hs, ht], hnf, h1, h2⟩

/-- Witness for C2 at a concrete always-intersecting scene. -/
theorem claim_C2_exhaustion_witness :
    sceneSome "S" = some [2] ∧ sceneSome "T" = some [2] ∧
    executeE tiEq deformId (some "S") "T" sceneSome [] true =
      Except.ok (execute tiEq deformId "S" "T"
        (fun n => (sceneSome n).getD []) [2] [] true) ∧
    (execute tiEq deformId "S" "T"
      (fun n => (sceneSome n).getD []) [2] [] true).foundGoodOffset = false ∧
    (execute tiEq deformId "S" "T"
      (fun n => (sceneSome n).getD []) [2] [] true).iterations = bound ∧
    (execute tiEq deformId "S" "T"
      (fun n => (sceneSome n).getD []) [2] [] true).oracleCalls = bound := by
  have h := claim_C2_exhaustion tiEq deformId "S" "T" sceneSome [2] [2] [] true
    rfl rfl (fun j hj => rfl)
  exact ⟨rfl, rfl, h⟩

/-- C9: when the subject reference is missing (no active object) or the
target reference is missing or empty (no object of that name, including the
empty default name), the controller fails fast with a descriptive error
before searching, and the oracle itself fails fast when a name in its object
list does not resolve — neither silently returns `false`. -/
theorem claim_C9_fail_fast {T : Type} (ti : T → T → Bool)
    (deform : List T → ℚ → List T) (sN tN a b : String)
    (sceneO : String → Option (List T)) (mods0 : List ℚ) (ap : Bool) :
    (a ≠ b → sceneO a = none ∨ sceneO b = none →
      ∃ msg, intersection_checkE ti sceneO [a, b] = Except.error msg) ∧
    (∃ msg, executeE ti deform none tN sceneO mods0 ap = Except.error msg) ∧
    (sceneO tN = none →
      ∃ msg, executeE ti deform (some sN) tN sceneO mods0 ap = Except.error msg) := by
  refine ⟨?_, ⟨"AttributeError: no active object", rfl⟩, ?_⟩
  · intro hab hmiss
    have h1 : (a == b) = false := beq_eq_false_iff_ne.mpr hab
    have h2 : (b == a) = false := beq_eq_false_iff_ne.mpr (Ne.symm hab)
    rcases hmiss with ha | hb2
    · refine ⟨"KeyError: " ++ a ++ " not found", ?_⟩
      simp [intersection_checkE, List.foldlM, h1, h2, ha]
      rfl
    · cases hsa : sceneO a with
      | none =>
        refine ⟨"KeyError: " ++ a ++ " not found", ?_⟩
        simp [intersection_checkE, List.foldlM, h1, h2, hsa]
        rfl
      | some m1 =>
        refine ⟨"KeyError: " ++ b ++ " not found", ?_⟩
        simp [intersection_checkE, List.foldlM, h1, h2, hsa, hb2]
        rfl
  · intro ht
    exact ⟨"KeyError: " ++ tN ++ " not found", by simp [executeE, ht]⟩

/-- Witness for C9 with a scene that resolves only `S`. -/
theorem claim_C9_fail_fast_witness :
    (("S" : String) ≠ "X" ∧ sceneMiss "X" = none) ∧
    (∃ msg, intersection_checkE tiEq sceneMiss ["S", "X"] = Except.error msg) ∧
    (∃ msg, executeE tiEq deformId none "T" sceneMiss [] true = Except.error msg) ∧
    (∃ msg, executeE tiEq deformId (some "S") "X" sceneMiss [] true =
      Except.error msg) := by
  have h := claim_C9_fail_fast tiEq deformId "S" "X" "S" "X" sceneMiss [] true
  exact ⟨⟨by decide, rfl⟩, h.1 (by decide) (Or.inr rfl), h.2.1, h.2.2 rfl⟩

end ShrinkwrapWithoutTouching
